import Mathlib

/-
Verification of the lap/sector delta and telemetry-feature computation engine.

The Python source is shallowly embedded in Lean:
  * Python scalar cell values (as produced by `pandas.read_csv`) are the
    inductive type `PyVal`: `None`, `float('nan')`, strings, ints and floats.
    Floats are modelled as exact rationals (all the concrete values appearing
    in the claims are decimal and exactly representable at that precision).
  * A raised Python exception is `Except.error` with a `PyErr` naming the
    exception class that the source raises at that point.
  * `pandas` tables are `Table`: a column-name list plus rows of
    (column, value) cells; a cell absent from a row is `PyVal.vNaN`, which is
    what `read_csv` produces for an empty CSV field.
-/

namespace OkGr

/-- Exception classes raised by the embedded code. `warningRaised` models the
`raise Warning(...)` statements in `telemetry_tools.py` (in Python, `Warning`
is an exception class, so `raise Warning(...)` aborts like any other raise). -/
inductive PyErr where
  | valueError
  | indexError
  | warningRaised
  deriving DecidableEq, Repr

/-- A Python float that may be NaN (`np.nan`); finite values are exact ℚ. -/
inductive FloatVal where
  | fNaN
  | fVal (q : ℚ)
  deriving DecidableEq, Repr

/-- A scalar cell value as held in a pandas table read from CSV. -/
inductive PyVal where
  | vNone
  | vNaN
  | vStr (s : String)
  | vInt (n : Int)
  | vFloat (q : ℚ)
  deriving DecidableEq, Repr

/- ------------------------------------------------------------------
   Python string/number primitives used by the source:
   str.split, int(), float(), str() of ints and floats.
   ------------------------------------------------------------------ -/

/-- `l.split(c)` on a character list, Python semantics:
`"".split(":") = [""]`, `":".split(":") = ["", ""]`. -/
def splitOnChar (c : Char) (l : List Char) : List (List Char) :=
  l.foldr
    (fun ch acc =>
      if ch = c then [] :: acc
      else
        match acc with
        | [] => [[ch]]
        | g :: gs => (ch :: g) :: gs)
    [[]]

/-- Strip leading and trailing whitespace (Python `str.strip()` as called by
`int()` / `float()` on their argument). -/
def stripWs (l : List Char) : List Char :=
  ((l.dropWhile Char.isWhitespace).reverse.dropWhile Char.isWhitespace).reverse

/-- Digit-string to ℕ; `none` unless nonempty and all decimal digits. -/
def natOfDigits (l : List Char) : Option Nat :=
  if l ≠ [] ∧ l.all Char.isDigit then
    some (l.foldl (fun acc c => 10 * acc + (c.toNat - 48)) 0)
  else none

/-- Python `int(s)`: optional sign, then a nonempty run of decimal digits
(surrounding whitespace stripped). Exotic accepted forms (underscores,
non-ASCII digits) never occur in this code base and are not modelled. -/
def pyIntChars (l : List Char) : Option Int :=
  match stripWs l with
  | '-' :: rest => (natOfDigits rest).map (fun n => -(n : Int))
  | '+' :: rest => (natOfDigits rest).map (fun n => (n : Int))
  | rest => (natOfDigits rest).map (fun n => (n : Int))

/-- Digit-string to ℕ allowing the empty string (value 0), used for the two
sides of the decimal point: `float("1.")` and `float(".5")` are legal. -/
def natOfDigitsOpt (l : List Char) : Option Nat :=
  if l.all Char.isDigit then
    some (l.foldl (fun acc c => 10 * acc + (c.toNat - 48)) 0)
  else none

/-- Python `float(s)` on the decimal forms this code base feeds it: optional
sign, digits with at most one dot, at least one digit overall; the result is
returned as an exact pair (integer numerator, number of decimal places), so
`"08.511"` yields `(8511, 3)`. Exponent and inf/nan literals never occur in
the inputs and are not modelled. -/
def pyFloatParts (l : List Char) : Option (Int × Nat) :=
  let body := fun (cs : List Char) =>
    match splitOnChar '.' cs with
    | [ip] => (natOfDigits ip).map (fun n => ((n : Int), 0))
    | [ip, fp] =>
      if ip = [] ∧ fp = [] then none
      else
        match natOfDigitsOpt ip, natOfDigitsOpt fp with
        | some i, some f => some (((i * 10 ^ fp.length + f : Nat) : Int), fp.length)
        | _, _ => none
    | _ => none
  match stripWs l with
  | '-' :: rest => (body rest).map (fun p => (-p.1, p.2))
  | '+' :: rest => body rest
  | rest => body rest

/-- The rational value of Python `float(s)`: numerator over `10 ^ places`. -/
def pyFloatChars (l : List Char) : Option ℚ :=
  (pyFloatParts l).map (fun p => (p.1 : ℚ) / (10 : ℚ) ^ p.2)

/-- The decimal digit characters, used to build `str(int)` / `str(float)`. -/
def digitChar (d : Nat) : Char :=
  match d with
  | 0 => '0' | 1 => '1' | 2 => '2' | 3 => '3' | 4 => '4'
  | 5 => '5' | 6 => '6' | 7 => '7' | 8 => '8' | _ => '9'

/-- Decimal digits of `n`, most significant first (empty for 0); fuelled so
the recursion is structural. -/
def natDigitsFuel : Nat → Nat → List Char
  | 0, _ => []
  | fuel + 1, n =>
    if n = 0 then [] else natDigitsFuel fuel (n / 10) ++ [digitChar (n % 10)]

/-- Python `str(n)` for a natural number. -/
def natRepr (n : Nat) : List Char :=
  if n = 0 then ['0'] else natDigitsFuel (n + 1) n

/-- Python `str(n)` for an int. -/
def intRepr (i : Int) : List Char :=
  if i < 0 then '-' :: natRepr i.natAbs else natRepr i.natAbs

/-- Decimal digits of the fractional part `r ∈ [0,1)`; 17 digits of fuel
(Python's repr of a float never needs more). -/
def fracDigitsFuel : Nat → ℚ → List Char
  | 0, _ => []
  | fuel + 1, r =>
    if r = 0 then []
    else digitChar (⌊r * 10⌋.toNat % 10) :: fracDigitsFuel fuel (r * 10 - ⌊r * 10⌋)

/-- Python `str(x)` for a float, modelled for the decimal values this code
handles: integral floats render as `"<n>.0"`, finite decimals exactly. -/
def floatRepr (q : ℚ) : List Char :=
  let sign : List Char := if q < 0 then ['-'] else []
  let ds := fracDigitsFuel 17 (|q| - ⌊|q|⌋)
  sign ++ natRepr ⌊|q|⌋.toNat ++ '.' :: (if ds = [] then ['0'] else ds)

/-- Python `str(x)` on a cell value (`str(None) = "None"`,
`str(float('nan')) = "nan"`). -/
def pyStr (v : PyVal) : List Char :=
  match v with
  | .vNone => "None".data
  | .vNaN => "nan".data
  | .vStr s => s.data
  | .vInt n => intRepr n
  | .vFloat q => floatRepr q

/- ------------------------------------------------------------------
   core/delta_tool.py : time_to_seconds
   ------------------------------------------------------------------ -/

/-- `core/delta_tool.py::time_to_seconds`.
`pd.isna` → NaN; numeric input → `float(t)`; otherwise split `str(t)` on `:`
into 1, 2 or 3 parts (`int` for hour/minute parts, `float` for the seconds
part; a failed conversion raises `ValueError`); any other part count returns
`np.nan`. -/
def timeToSeconds (t : PyVal) : Except PyErr FloatVal :=
  match t with
  | .vNone => .ok .fNaN
  | .vNaN => .ok .fNaN
  | .vInt n => .ok (.fVal (n : ℚ))
  | .vFloat q => .ok (.fVal q)
  | .vStr s =>
    match splitOnChar ':' s.data with
    | [p] =>
      match pyFloatChars p with
      | some v => .ok (.fVal v)
      | none => .error .valueError
    | [m, sec] =>
      match pyIntChars m, pyFloatChars sec with
      | some mv, some sv => .ok (.fVal ((mv : ℚ) * 60 + sv))
      | _, _ => .error .valueError
    | [h, m, sec] =>
      match pyIntChars h, pyIntChars m, pyFloatChars sec with
      | some hv, some mv, some sv =>
        .ok (.fVal ((hv : ℚ) * 3600 + (mv : ℚ) * 60 + sv))
      | _, _, _ => .error .valueError
    | _ => .ok .fNaN

/- ------------------------------------------------------------------
   core/summary_key_stats.py : lap_to_seconds
   ------------------------------------------------------------------ -/

/-- `core/summary_key_stats.py::lap_to_seconds`.
`pd.isna` → None; otherwise `mm, ss = str(x).split(":")` (exactly two parts)
with `int(mm) * 60 + float(ss)`; the bare `except` turns every failure
(wrong part count, unparseable part) into None. -/
def lapToSeconds (x : PyVal) : Option ℚ :=
  match x with
  | .vNone => none
  | .vNaN => none
  | v =>
    match splitOnChar ':' (pyStr v) with
    | [mm, ss] =>
      match pyIntChars mm, pyFloatChars ss with
      | some m, some s => some ((m : ℚ) * 60 + s)
      | _, _ => none
    | _ => none

/- ------------------------------------------------------------------
   pandas tables
   ------------------------------------------------------------------ -/

/-- One table row: (column name, cell value) pairs. -/
abbrev Row := List (String × PyVal)

/-- A pandas DataFrame as loaded by `pd.read_csv(..., sep=";")`: column
order plus rows. -/
structure Table where
  cols : List String
  rows : List Row
  deriving DecidableEq, Repr

/-- Cell access. A cell missing from a row is what `read_csv` turns an empty
CSV field into: `np.nan`. -/
def getCell (r : Row) (c : String) : PyVal :=
  (r.lookup c).getD .vNaN

/-- Pandas `series == car_number` with an int on the right: true only for
numeric cells of equal value (`"7" == 7`, `None == 7`, `nan == 7` are all
False in Python). -/
def pyNumEqInt (v : PyVal) (n : Int) : Bool :=
  match v with
  | .vInt m => m = n
  | .vFloat q => q = (n : ℚ)
  | _ => false

/-- `pat.isPrefixOf l` on char lists (used for `str.startswith`). -/
def startsWithL (pat l : List Char) : Bool :=
  match pat, l with
  | [], _ => true
  | _ :: _, [] => false
  | p :: ps, c :: cs => p = c && startsWithL ps cs

/-- Python `s.startswith(pat)`. -/
def pyStartsWith (pat s : String) : Bool := startsWithL pat.data s.data

/-- Python `s.endswith(pat)`. -/
def pyEndsWith (pat s : String) : Bool := startsWithL pat.data.reverse s.data.reverse

/-- Python `pat in s` (substring containment). -/
def hasSubstrL (pat : List Char) : List Char → Bool
  | [] => pat.isEmpty
  | c :: cs => startsWithL pat (c :: cs) || hasSubstrL pat cs

/-- Python `s.lower()` (ASCII; column names here are ASCII). -/
def lowerL (l : List Char) : List Char := l.map Char.toLower

/-- Python `str.strip()` on a string. -/
def pyStrip (s : String) : String := ⟨stripWs s.data⟩

/-- Stable ascending insertion used by CPython's list sort: an element is
inserted before the first existing element that is strictly greater
(equivalently, after every element not greater than it), which keeps equal
keys in arrival order. -/
def insertAsc (lt : α → α → Bool) (x : α) : List α → List α
  | [] => [x]
  | y :: ys => if lt x y then x :: y :: ys else y :: insertAsc lt x ys

/-- Python `sorted(l, key=...)`-style stable sort (insertion formulation;
for the totally ordered inputs below this agrees with Timsort). -/
def pySortBy (lt : α → α → Bool) (l : List α) : List α :=
  l.foldl (fun acc x => insertAsc lt x acc) []

/-- Python `<` on possibly-NaN floats: every comparison with NaN is False. -/
def fvLt (a b : FloatVal) : Bool :=
  match a, b with
  | .fVal x, .fVal y => x < y
  | _, _ => false

/-- `series.apply(f)` where `f` may raise: the first exception propagates. -/
def exceptMap (f : α → Except ε β) : List α → Except ε (List β)
  | [] => .ok []
  | x :: xs =>
    match f x with
    | .error e => .error e
    | .ok y =>
      match exceptMap f xs with
      | .error e => .error e
      | .ok ys => .ok (y :: ys)

/- ------------------------------------------------------------------
   core/determine_reference_tool.py : compute_reference_laps
   ------------------------------------------------------------------ -/

/-- `df[df["NUMBER"] == car_number]`. -/
def refDriverRows (tbl : Table) (car : Int) : List Row :=
  tbl.rows.filter (fun r => pyNumEqInt (getCell r "NUMBER") car)

/-- Columns whose name starts with `BESTLAP_`. -/
def refLapCols (tbl : Table) : List String :=
  tbl.cols.filter (fun c => pyStartsWith "BESTLAP_" c)

/-- The slot-collection loop of `compute_reference_laps`: for each column,
`raw = driver_df.iloc[0][col]`; a str is parsed as
`minutes, seconds = raw.split(":")` (a wrong part count or a failed
`int`/`float` conversion raises `ValueError`); an int or float — and `np.nan`
IS a float instance in Python — is appended as-is; anything else (the
`else: continue` branch, e.g. a true `None` object) is skipped. -/
def collectLapTimes (row : Row) : List String → Except PyErr (List (String × FloatVal))
  | [] => .ok []
  | c :: cs =>
    let step : Except PyErr (Option (String × FloatVal)) :=
      match getCell row c with
      | .vStr s =>
        match splitOnChar ':' s.data with
        | [m, sec] =>
          match pyIntChars m, pyFloatChars sec with
          | some mv, some sv => .ok (some (c, .fVal ((mv : ℚ) * 60 + sv)))
          | _, _ => .error .valueError
        | _ => .error .valueError
      | .vInt n => .ok (some (c, .fVal (n : ℚ)))
      | .vFloat q => .ok (some (c, .fVal q))
      | .vNaN => .ok (some (c, .fNaN))
      | .vNone => .ok none
    match step with
    | .error e => .error e
    | .ok o =>
      match collectLapTimes row cs with
      | .error e => .error e
      | .ok rest =>
        match o with
        | some p => .ok (p :: rest)
        | none => .ok rest

/-- Result of `compute_reference_laps`. -/
structure RefResult where
  carNumber : Int
  fastestLapName : String
  fastestLapTime : FloatVal
  lapOrder : List (String × FloatVal)
  deriving DecidableEq, Repr

/-- `core/determine_reference_tool.py::compute_reference_laps`: filter to the
car (`ValueError` if absent), collect the `BESTLAP_` slots of the first
driver row, sort ascending by seconds, and take element `[0]` of the sorted
list — an unguarded subscript that raises `IndexError` when the list is
empty. -/
def computeReferenceLaps (tbl : Table) (car : Int) : Except PyErr RefResult :=
  match refDriverRows tbl car with
  | [] => .error .valueError
  | row :: _ =>
    match collectLapTimes row (refLapCols tbl) with
    | .error e => .error e
    | .ok lapTimes =>
      match pySortBy (fun a b => fvLt a.2 b.2) lapTimes with
      | [] => .error .indexError
      | (n, t) :: rest =>
        .ok ⟨car, n, t, (n, t) :: rest⟩

/- ------------------------------------------------------------------
   core/summary_key_stats.py : display_key_summary_stats
   ------------------------------------------------------------------ -/

/-- Lap-time columns: name starts with `BESTLAP_` and does not end with
`_LAPNUM`. -/
def sksLapCols (tbl : Table) : List String :=
  tbl.cols.filter (fun c => pyStartsWith "BESTLAP_" c && !(pyEndsWith "_LAPNUM" c))

/-- One row of `df[lap_cols].applymap(lap_to_seconds)`. -/
def sksRowTimes (cols : List String) (r : Row) : List (Option ℚ) :=
  cols.map (fun c => lapToSeconds (getCell r c))

/-- `df[df["NUMBER"] == car_number]`. -/
def sksDriverRows (tbl : Table) (car : Int) : List Row :=
  tbl.rows.filter (fun r => pyNumEqInt (getCell r "NUMBER") car)

/-- `df_lap_times.loc[driver_df.index].values.flatten()` with nulls removed
(row-major: driver rows in table order, columns in `lap_cols` order). -/
def sksDriverTimes (tbl : Table) (car : Int) : List ℚ :=
  (((sksDriverRows tbl car).map (sksRowTimes (sksLapCols tbl))).flatten).filterMap id

/-- `df_lap_times.values.flatten()` with nulls removed — all vehicles' parsed
slot values, not one value per vehicle. -/
def sksSessionTimes (tbl : Table) : List ℚ :=
  ((tbl.rows.map (sksRowTimes (sksLapCols tbl))).flatten).filterMap id

/-- The dict returned by `display_key_summary_stats`. -/
structure SummaryStats where
  personalBest : ℚ
  driverPosition : Nat
  sessionFastest : ℚ
  gapToFastest : ℚ
  deriving DecidableEq, Repr

/-- `core/summary_key_stats.py::display_key_summary_stats`: the two
`st.error(...); return` branches return `None` (here `none`); otherwise
`personal_best = min(driver_times)`, `session_fastest = min(session_times)`,
`driver_position = sorted(session_times).index(personal_best) + 1` and
`gap_to_fastest = session_fastest - personal_best`. `session_times` is never
empty on the path that reaches `min` because the driver's own times are part
of it. -/
def displayKeySummaryStats (tbl : Table) (car : Int) : Option SummaryStats :=
  match sksDriverRows tbl car with
  | [] => none
  | _ :: _ =>
    match sksDriverTimes tbl car with
    | [] => none
    | t :: ts =>
      let personalBest := ts.foldl min t
      match sksSessionTimes tbl with
      | [] => none
      | s :: ss =>
        let sessionFastest := ss.foldl min s
        let sessionSorted := pySortBy (fun a b => a < b) (s :: ss)
        let driverPosition := sessionSorted.findIdx (fun x => x == personalBest) + 1
        some ⟨personalBest, driverPosition, sessionFastest, sessionFastest - personalBest⟩

/- ------------------------------------------------------------------
   core/summary_deltas.py : the driver filter of summary_deltas
   ------------------------------------------------------------------ -/

/-- The row-filter logic of `core/summary_deltas.py::summary_deltas`
(its steps 3–4): `df[df["NUMBER"] == car_number]`; if that is empty, retry
with `df["NUMBER"].astype(str) == str(car_number)`; if that is also empty,
raise `ValueError`. -/
def summaryDeltasDriverRows (tbl : Table) (car : Int) : Except PyErr (List Row) :=
  let numRows := tbl.rows.filter (fun r => pyNumEqInt (getCell r "NUMBER") car)
  if numRows.isEmpty then
    let strRows := tbl.rows.filter (fun r => pyStr (getCell r "NUMBER") = intRepr car)
    if strRows.isEmpty then .error .valueError else .ok strRows
  else .ok numRows

/- ------------------------------------------------------------------
   core/telemetry_tools.py : vehicle-column resolution
   ------------------------------------------------------------------ -/

/-- The column-resolution prologue of `core/telemetry_tools.py::telemetry_tool`:
column names are stripped; if `'vehicle_number'` is absent, columns whose
lowercased name contains `"vehicle"` are candidates — if one exists the code
executes `raise Warning("Using column ... as the vehicle identifier.")`
(which aborts, `Warning` being an exception class), and if none exists it
raises `ValueError`. On success it returns the resolved column name. -/
def telemetryResolveVehicleCol (cols : List String) : Except PyErr String :=
  let cols := cols.map pyStrip
  if "vehicle_number" ∈ cols then .ok "vehicle_number"
  else
    match cols.filter (fun c => hasSubstrL "vehicle".data (lowerL c.data)) with
    | [] => .error .valueError
    | _ :: _ => .error .warningRaised

/- ------------------------------------------------------------------
   core/delta_tool.py : deltas_tool — lap-time extraction and
   consistency score
   ------------------------------------------------------------------ -/

/-- The lap-time pipeline of `core/delta_tool.py::deltas_tool`:
`df["LAP_TIME_S"] = df["LAP_TIME"].apply(time_to_seconds)` over the whole
table (a parse exception propagates), then
`driver_df = df[df["NUMBER"] == car_number]` (`ValueError` if empty), then
`driver_df["LAP_TIME_S"].dropna()`. -/
def deltasToolDriverLapTimes (tbl : Table) (car : Int) : Except PyErr (List ℚ) :=
  match exceptMap (fun r => timeToSeconds (getCell r "LAP_TIME")) tbl.rows with
  | .error e => .error e
  | .ok lts =>
    let driverPairs := (tbl.rows.zip lts).filter
      (fun p => pyNumEqInt (getCell p.1 "NUMBER") car)
    if driverPairs.isEmpty then .error .valueError
    else
      .ok (driverPairs.filterMap (fun p =>
        match p.2 with
        | .fVal q => some q
        | .fNaN => none))

/-- `series.mean()`. -/
def meanQ (l : List ℚ) : ℚ := l.sum / (l.length : ℚ)

/-- `series.std()` squared: pandas sample variance (`ddof=1`). -/
def sampleVarQ (l : List ℚ) : ℚ :=
  ((l.map (fun x => (x - meanQ l) ^ 2)).sum) / ((l.length : ℚ) - 1)

/-- The clamped score of `deltas_tool`:
`max(0, min(100, 100 - (std/mean) * 100))`. -/
noncomputable def consistencyScoreVal (laps : List ℚ) : ℝ :=
  let cv : ℝ := Real.sqrt ((sampleVarQ laps : ℚ) : ℝ) / ((meanQ laps : ℚ) : ℝ)
  max 0 (min 100 (100 - cv * 100))

/-- Round-half-to-even at `k` decimal places (Python's `round`), on ℝ. -/
noncomputable def roundHalfEvenR (k : Nat) (x : ℝ) : ℝ :=
  let y : ℝ := x * (10 : ℝ) ^ k
  let n : Int := ⌊y⌋
  let r : ℝ := y - (n : ℝ)
  let m : Int :=
    if r < 1 / 2 then n
    else if 1 / 2 < r then n + 1
    else if n % 2 = 0 then n else n + 1
  (m : ℝ) / (10 : ℝ) ^ k

open Classical in
/-- The `consistency_score` field of the dict `deltas_tool` returns:
score computed only for `len(lap_times) > 1`, else `None`; and the return
expression `round(consistency_score, 2) if consistency_score else None`,
whose Python truthiness also maps a score of `0` (or `None`) to `None`. -/
noncomputable def consistencyReturn (laps : List ℚ) : Option ℝ :=
  if 1 < laps.length then
    let s := consistencyScoreVal laps
    if s = 0 then none else some (roundHalfEvenR 2 s)
  else none

/-- `deltas_tool` restricted to the consistency-score component of its
result. -/
noncomputable def deltasToolConsistency (tbl : Table) (car : Int) :
    Except PyErr (Option ℝ) :=
  (deltasToolDriverLapTimes tbl car).map consistencyReturn

/- ------------------------------------------------------------------
   core/telemetry_tools.py : steering analysis (telemetry_tool, the
   section operating on the time-sorted steering_angle_data series of
   (timestamp, telemetry_value) samples; timestamps in seconds)
   ------------------------------------------------------------------ -/

/-- `series.diff().fillna(0)`: first element 0, then successive
differences. -/
def diffFill0 (l : List ℚ) : List ℚ :=
  match l with
  | [] => []
  | _ :: xs => 0 :: List.zipWith (fun a b => b - a) l xs

/-- `steering_angle_data['dt']`. -/
def steerDts (st : List (ℚ × ℚ)) : List ℚ := diffFill0 (st.map Prod.fst)

/-- `steering_angle_data['d_steer']`. -/
def steerDSteers (st : List (ℚ × ℚ)) : List ℚ := diffFill0 (st.map Prod.snd)

/-- The `np.where((dt > 0) & (dt <= MAX_DT_THRESHOLD), d_steer / dt, np.nan)`
cell: `none` is the `np.nan` branch. -/
def rateOf (dt ds : ℚ) : Option ℚ :=
  if 0 < dt ∧ dt ≤ 1 / 2 then some (ds / dt) else none

/-- `steering_angle_data['Steering_Rate']`. -/
def steerRates (st : List (ℚ × ℚ)) : List (Option ℚ) :=
  List.zipWith rateOf (steerDts st) (steerDSteers st)

/-- `steering_rate_df = steering_angle_data.dropna(subset=['Steering_Rate'])`,
keeping the columns the later code uses: `(dt, Steering_Rate)`. -/
def steerRateRows (st : List (ℚ × ℚ)) : List (ℚ × ℚ) :=
  ((steerDts st).zip (steerRates st)).filterMap
    (fun p => p.2.map (fun r => (p.1, r)))

/-- `steering_rate_df['Steering_Rate'].abs()`. -/
def steerAbsRates (st : List (ℚ × ℚ)) : List ℚ :=
  (steerRateRows st).map (fun p => |p.2|)

/-- `series.std()` (pandas, `ddof=1`): NaN — here `none` — for fewer than two
values, else the square root of the sample variance. -/
noncomputable def sampleStd (l : List ℚ) : Option ℝ :=
  if 2 ≤ l.length then some (Real.sqrt ((sampleVarQ l : ℚ) : ℝ)) else none

/-- `steering_smoothness_score`:
`min(100.0, 100 * exp(-std / 20.0))` when the std is not NaN, else `None`. -/
noncomputable def steeringSmoothness (st : List (ℚ × ℚ)) : Option ℝ :=
  (sampleStd (steerAbsRates st)).map
    (fun s => min 100 (100 * Real.exp (-(s / 20))))

/-- The `steering_smoothness_score` field of the returned dict:
`round(score, 2)` when not `None`. -/
noncomputable def steeringSmoothnessReturn (st : List (ℚ × ℚ)) : Option ℝ :=
  (steeringSmoothness st).map (roundHalfEvenR 2)

/-- Round-half-to-even at `k` decimal places (`Series.round` / `round`), ℚ. -/
def roundHalfEvenQ (k : Nat) (q : ℚ) : ℚ :=
  let y : ℚ := q * (10 : ℚ) ^ k
  let n : Int := ⌊y⌋
  let r : ℚ := y - (n : ℚ)
  let m : Int :=
    if r < 1 / 2 then n
    else if 1 / 2 < r then n + 1
    else if n % 2 = 0 then n else n + 1
  (m : ℚ) / (10 : ℚ) ^ k

/-- `np.sign`. -/
def signQ (q : ℚ) : ℚ := if q < 0 then -1 else if q = 0 then 0 else 1

/-- `steering_rate_df['Rate_Sign'] = np.sign(rate.round(1))`. -/
def steerSigns (st : List (ℚ × ℚ)) : List ℚ :=
  (steerRateRows st).map (fun p => signQ (roundHalfEvenQ 1 p.2))

/-- `steering_rate_df['Sign_Change'] = Rate_Sign.diff().abs() > 0`
(the first row's NaN diff compares as False). -/
def steerSignChanges (st : List (ℚ × ℚ)) : List Bool :=
  match steerSigns st with
  | [] => []
  | s :: ss => false :: List.zipWith (fun a b => decide (0 < |b - a|)) (s :: ss) ss

/-- `micro_corrections_count`: rows with a sign change whose absolute rate is
below the 5 deg/s threshold. -/
def steerMicroCount (st : List (ℚ × ℚ)) : Nat :=
  (((steerSignChanges st).zip (steerRateRows st)).filter
    (fun p => p.1 && decide (|p.2.2| < 5))).length

/-- `total_time_seconds = steering_rate_df['dt'].sum()`. -/
def steerTotalTime (st : List (ℚ × ℚ)) : ℚ :=
  ((steerRateRows st).map Prod.fst).sum

/-- `micro_corrections_per_minute`: 0 unless the summed dt exceeds 60 s,
else count normalised per minute. -/
def microPerMinute (st : List (ℚ × ℚ)) : ℚ :=
  if 60 < steerTotalTime st then
    (steerMicroCount st : ℚ) / (steerTotalTime st / 60)
  else 0

/-- The `micro_corrections_per_minute` field of the returned dict
(`round(..., 2)`). -/
def microPerMinuteReturn (st : List (ℚ × ℚ)) : ℚ :=
  roundHalfEvenQ 2 (microPerMinute st)

/- ==================================================================
   Helper lemmas
   ================================================================== -/

instance {ε α : Type _} [DecidableEq ε] [DecidableEq α] : DecidableEq (Except ε α) :=
  fun x y =>
    match x, y with
    | .ok a, .ok b => if h : a = b then .isTrue (by rw [h]) else .isFalse (by simp [h])
    | .ok _, .error _ => .isFalse (by simp)
    | .error _, .ok _ => .isFalse (by simp)
    | .error e, .error f => if h : e = f then .isTrue (by rw [h]) else .isFalse (by simp [h])

theorem pyFloatChars_of_parts {l : List Char} {n : Int} {k : Nat}
    (h : pyFloatParts l = some (n, k)) :
    pyFloatChars l = some ((n : ℚ) / (10 : ℚ) ^ k) := by
  simp [pyFloatChars, h]

/- ==================================================================
   C1 — TimeParser.parse never raises
   ================================================================== -/

/-- C1 counterexample: the claim says `time_to_seconds` never propagates a
parse exception, returning a null result for every malformed input; but on
the non-numeric strings `"garbage"` and `""` the unguarded `float(...)` call
raises `ValueError`. -/
theorem timeToSeconds_raises_on_garbage :
    timeToSeconds (.vStr "garbage") = .error .valueError ∧
    timeToSeconds (.vStr "") = .error .valueError :=
  ⟨by decide, by decide⟩

/-- C1 amended: `time_to_seconds` returns a null result (`np.nan`) for
missing inputs (`None` / `nan`) and for strings splitting into more than 3
colon-separated parts, but a string whose parts fail `int()`/`float()`
conversion — e.g. `"garbage"` or the empty string — raises `ValueError`
instead of degrading to null. -/
theorem timeToSeconds_failSoft_amended :
    timeToSeconds .vNone = .ok .fNaN ∧
    timeToSeconds .vNaN = .ok .fNaN ∧
    (∀ s : String, 4 ≤ (splitOnChar ':' s.data).length →
      timeToSeconds (.vStr s) = .ok .fNaN) ∧
    timeToSeconds (.vStr "garbage") = .error .valueError ∧
    timeToSeconds (.vStr "") = .error .valueError := by
  refine ⟨rfl, rfl, ?_, by decide, by decide⟩
  intro s hs
  rcases hps : splitOnChar ':' s.data with _ | ⟨a, _ | ⟨b, _ | ⟨c, _ | ⟨d, rest⟩⟩⟩⟩
  · rw [hps] at hs; simp at hs
  · rw [hps] at hs; simp at hs
  · rw [hps] at hs; simp at hs
  · rw [hps] at hs; simp at hs
  · simp [timeToSeconds, hps]

/-- C1 witness: a concrete 4-part string takes the amended null branch. -/
theorem timeToSeconds_failSoft_amended_witness :
    4 ≤ (splitOnChar ':' ("1:2:3:4").data).length ∧
    timeToSeconds (.vStr "1:2:3:4") = .ok .fNaN :=
  ⟨by decide, timeToSeconds_failSoft_amended.2.2.1 "1:2:3:4" (by decide)⟩

/- ==================================================================
   C9 — TimeParser.parse on canonical inputs
   ================================================================== -/

/-- C9: `time_to_seconds` maps every valid canonical string to its seconds
value — one part parses as float seconds, two parts as `minutes*60 +
seconds`, three parts as `hours*3600 + minutes*60 + seconds` — numeric
inputs pass through as float unchanged, and in particular
`parse("1:25.342") = 85.342`, `parse("2:08.511") = 128.511`,
`parse("55.123") = 55.123`. -/
theorem timeToSeconds_canonical :
    (∀ n : Int, timeToSeconds (.vInt n) = .ok (.fVal (n : ℚ))) ∧
    (∀ q : ℚ, timeToSeconds (.vFloat q) = .ok (.fVal q)) ∧
    (∀ (s : String) (p : List Char) (v : ℚ),
      splitOnChar ':' s.data = [p] → pyFloatChars p = some v →
      timeToSeconds (.vStr s) = .ok (.fVal v)) ∧
    (∀ (s : String) (m sec : List Char) (mv : Int) (sv : ℚ),
      splitOnChar ':' s.data = [m, sec] → pyIntChars m = some mv →
      pyFloatChars sec = some sv →
      timeToSeconds (.vStr s) = .ok (.fVal ((mv : ℚ) * 60 + sv))) ∧
    (∀ (s : String) (hh m sec : List Char) (hv mv : Int) (sv : ℚ),
      splitOnChar ':' s.data = [hh, m, sec] → pyIntChars hh = some hv →
      pyIntChars m = some mv → pyFloatChars sec = some sv →
      timeToSeconds (.vStr s) = .ok (.fVal ((hv : ℚ) * 3600 + (mv : ℚ) * 60 + sv))) ∧
    timeToSeconds (.vStr "1:25.342") = .ok (.fVal (85342 / 1000)) ∧
    timeToSeconds (.vStr "2:08.511") = .ok (.fVal (128511 / 1000)) ∧
    timeToSeconds (.vStr "55.123") = .ok (.fVal (55123 / 1000)) := by
  refine ⟨fun n => rfl, fun q => rfl, ?_, ?_, ?_, ?_, ?_, ?_⟩
  · intro s p v h1 h2
    simp [timeToSeconds, h1, h2]
  · intro s m sec mv sv h1 h2 h3
    simp [timeToSeconds, h1, h2, h3]
  · intro s hh m sec hv mv sv h1 h2 h3 h4
    simp [timeToSeconds, h1, h2, h3, h4]
  · have h1 : splitOnChar ':' ("1:25.342").data = ["1".data, "25.342".data] := by decide
    have h2 : pyIntChars "1".data = some 1 := by decide
    have h3 : pyFloatParts "25.342".data = some (25342, 3) := by decide
    simp [timeToSeconds, h1, h2, pyFloatChars_of_parts h3]
    norm_num
  · have h1 : splitOnChar ':' ("2:08.511").data = ["2".data, "08.511".data] := by decide
    have h2 : pyIntChars "2".data = some 2 := by decide
    have h3 : pyFloatParts "08.511".data = some (8511, 3) := by decide
    simp [timeToSeconds, h1, h2, pyFloatChars_of_parts h3]
    norm_num
  · have h1 : splitOnChar ':' ("55.123").data = ["55.123".data] := by decide
    have h3 : pyFloatParts "55.123".data = some (55123, 3) := by decide
    simp [timeToSeconds, h1, pyFloatChars_of_parts h3]
    norm_num

/-- C9 witness: the three-part shape applied at `"1:02:03.5"`. -/
theorem timeToSeconds_canonical_witness :
    timeToSeconds (.vStr "1:02:03.5") =
      .ok (.fVal (((1 : Int) : ℚ) * 3600 + ((2 : Int) : ℚ) * 60 + ((35 : Int) : ℚ) / (10 : ℚ) ^ 1)) := by
  have h3 : pyFloatParts "03.5".data = some (35, 1) := by decide
  exact timeToSeconds_canonical.2.2.2.2.1 "1:02:03.5" "1".data "02".data "03.5".data
    1 2 (((35 : Int) : ℚ) / (10 : ℚ) ^ 1) (by decide) (by decide) (by decide)
    (pyFloatChars_of_parts h3)

/- ==================================================================
   C10 — lap_to_seconds admits only one-colon strings
   ================================================================== -/

theorem digitChar_ne_colon (d : Nat) : digitChar d ≠ ':' := by
  unfold digitChar
  split <;> decide

theorem natDigitsFuel_isDigitChar :
    ∀ (fuel n : Nat) (c : Char), c ∈ natDigitsFuel fuel n → ∃ d, c = digitChar d := by
  intro fuel
  induction fuel with
  | zero => intro n c hc; simp [natDigitsFuel] at hc
  | succ fuel ih =>
    intro n c hc
    by_cases hn : n = 0
    · simp [natDigitsFuel, hn] at hc
    · simp only [natDigitsFuel, if_neg hn, List.mem_append, List.mem_singleton] at hc
      rcases hc with hc | hc
      · exact ih _ _ hc
      · exact ⟨n % 10, hc⟩

theorem colon_not_mem_natRepr (n : Nat) : ':' ∉ natRepr n := by
  unfold natRepr
  split
  · decide
  · intro hmem
    obtain ⟨d, hd⟩ := natDigitsFuel_isDigitChar _ _ _ hmem
    exact digitChar_ne_colon d hd.symm

theorem colon_not_mem_intRepr (i : Int) : ':' ∉ intRepr i := by
  intro hmem
  unfold intRepr at hmem
  split at hmem
  · rw [List.mem_cons] at hmem
    rcases hmem with h | hmem
    · exact absurd h (by decide)
    · exact colon_not_mem_natRepr _ hmem
  · exact colon_not_mem_natRepr _ hmem

theorem fracDigitsFuel_isDigitChar :
    ∀ (fuel : Nat) (r : ℚ) (c : Char), c ∈ fracDigitsFuel fuel r → ∃ d, c = digitChar d := by
  intro fuel
  induction fuel with
  | zero => intro r c hc; simp [fracDigitsFuel] at hc
  | succ fuel ih =>
    intro r c hc
    by_cases hr : r = 0
    · simp [fracDigitsFuel, hr] at hc
    · simp only [fracDigitsFuel, if_neg hr, List.mem_cons] at hc
      rcases hc with hc | hc
      · exact ⟨_, hc⟩
      · exact ih _ _ hc

theorem colon_not_mem_floatRepr (q : ℚ) : ':' ∉ floatRepr q := by
  intro hmem
  unfold floatRepr at hmem
  simp only [List.mem_append, List.mem_cons] at hmem
  rcases hmem with (hmem | hmem) | hmem | hmem
  · split at hmem <;> simp at hmem
  · exact colon_not_mem_natRepr _ hmem
  · exact absurd hmem (by decide)
  · split at hmem
    · simp at hmem
    · obtain ⟨d, hd⟩ := fracDigitsFuel_isDigitChar _ _ _ hmem
      exact digitChar_ne_colon d hd.symm

/-- Unfolding equation for `splitOnChar` on a cons. -/
theorem splitOnChar_cons (c ch : Char) (tl : List Char) :
    splitOnChar c (ch :: tl) =
      (if ch = c then [] :: splitOnChar c tl
       else
         match splitOnChar c tl with
         | [] => [[ch]]
         | g :: gs => (ch :: g) :: gs) := rfl

theorem splitOnChar_ne_nil (c : Char) (l : List Char) : splitOnChar c l ≠ [] := by
  induction l with
  | nil => simp [splitOnChar]
  | cons ch tl ih =>
    rw [splitOnChar_cons]
    split
    · simp
    · rcases h : splitOnChar c tl with _ | ⟨g, gs⟩ <;> simp

theorem length_splitOnChar (c : Char) (l : List Char) :
    (splitOnChar c l).length = l.count c + 1 := by
  induction l with
  | nil => simp [splitOnChar]
  | cons ch tl ih =>
    rw [splitOnChar_cons]
    split
    · rename_i hc
      simp [List.count_cons, hc, ih]
    · rename_i hc
      rcases h : splitOnChar c tl with _ | ⟨g, gs⟩
      · exact absurd h (splitOnChar_ne_nil c tl)
      · rw [h] at ih
        simp only [List.length_cons] at ih ⊢
        simp [List.count_cons, Ne.symm, hc, ih]

/-- C10: on the summary-stats path a slot value feeds the computation only
when it is a string containing exactly one `:` — numeric slot values (int or
float) are converted to null by `lap_to_seconds`, as is every string of any
other colon shape (plain seconds, `H:MM:SS`), and only cells parsed to a
non-null value reach the session/personal-best lists. -/
theorem lapToSeconds_one_colon_only :
    (∀ n : Int, lapToSeconds (.vInt n) = none) ∧
    (∀ q : ℚ, lapToSeconds (.vFloat q) = none) ∧
    (∀ s : String, s.data.count ':' ≠ 1 → lapToSeconds (.vStr s) = none) ∧
    (∀ (tbl : Table) (v : ℚ), v ∈ sksSessionTimes tbl →
      ∃ r, r ∈ tbl.rows ∧ ∃ c, c ∈ sksLapCols tbl ∧
        lapToSeconds (getCell r c) = some v) := by
  have hsingle : ∀ (v : PyVal), (pyStr v).count ':' = 0 →
      ∀ q : ℚ, ¬ lapToSeconds v = some q := by
    intro v hv q hq
    have hlen : (splitOnChar ':' (pyStr v)).length = 1 := by
      rw [length_splitOnChar, hv]
    rcases hsp : splitOnChar ':' (pyStr v) with _ | ⟨a, _ | ⟨b, bs⟩⟩
    · exact splitOnChar_ne_nil _ _ hsp
    · unfold lapToSeconds at hq
      rcases v with _ | _ | s | n | q' <;> simp_all [hsp]
    · rw [hsp] at hlen; simp at hlen
  refine ⟨?_, ?_, ?_, ?_⟩
  · intro n
    rcases h : lapToSeconds (.vInt n) with _ | q
    · rfl
    · refine absurd h (hsingle _ ?_ q)
      show (intRepr n).count ':' = 0
      exact List.count_eq_zero.mpr (colon_not_mem_intRepr n)
  · intro q0
    rcases h : lapToSeconds (.vFloat q0) with _ | q
    · rfl
    · refine absurd h (hsingle _ ?_ q)
      show (floatRepr q0).count ':' = 0
      exact List.count_eq_zero.mpr (colon_not_mem_floatRepr q0)
  · intro s hs
    rcases hsp : splitOnChar ':' s.data with _ | ⟨a, _ | ⟨b, _ | ⟨c, cs⟩⟩⟩
    · exact absurd hsp (splitOnChar_ne_nil _ _)
    · unfold lapToSeconds; simp [pyStr, hsp]
    · exfalso
      have hlen := length_splitOnChar ':' s.data
      rw [hsp] at hlen
      simp at hlen
      omega
    · unfold lapToSeconds; simp [pyStr, hsp]
  · intro tbl v hv
    unfold sksSessionTimes at hv
    rw [List.mem_filterMap] at hv
    obtain ⟨o, ho, hov⟩ := hv
    rw [List.mem_flatten] at ho
    obtain ⟨sub, hsub, hosub⟩ := ho
    rw [List.mem_map] at hsub
    obtain ⟨r, hr, hrsub⟩ := hsub
    subst hrsub
    unfold sksRowTimes at hosub
    rw [List.mem_map] at hosub
    obtain ⟨c, hc, hco⟩ := hosub
    exact ⟨r, hr, c, hc, by rw [hco]; simpa using hov⟩

/-- Two-part (`M:SS`) evaluation helper for `lap_to_seconds`. -/
theorem lapToSeconds_eval (s : String) (mm ss : List Char) (m n : Int) (k : Nat) (v : ℚ)
    (h1 : splitOnChar ':' s.data = [mm, ss]) (h2 : pyIntChars mm = some m)
    (h3 : pyFloatParts ss = some (n, k))
    (h4 : (m : ℚ) * 60 + (n : ℚ) / (10 : ℚ) ^ k = v) :
    lapToSeconds (.vStr s) = some v := by
  unfold lapToSeconds
  simp [pyStr, h1, h2, pyFloatChars_of_parts h3, h4]

theorem lapToSeconds_142 : lapToSeconds (.vStr "1:42.000") = some 102 :=
  lapToSeconds_eval "1:42.000" "1".data "42.000".data 1 42000 3 102
    (by decide) (by decide) (by decide) (by norm_num)

/-- The concrete one-row reference table used for the C10 witness. -/
def tbl10 : Table :=
  ⟨["NUMBER", "BESTLAP_1"], [[("NUMBER", .vInt 3), ("BESTLAP_1", .vStr "1:42.000")]]⟩

/-- C10 witness: the zero-colon string `"55.123"` degrades to null, and a
value appearing in the session list of a concrete table is traced back to the
cell that parsed to it. -/
theorem lapToSeconds_one_colon_only_witness :
    lapToSeconds (.vStr "55.123") = none ∧
    (∃ r, r ∈ tbl10.rows ∧ ∃ c, c ∈ sksLapCols tbl10 ∧
      lapToSeconds (getCell r c) = some 102) := by
  have hmem : (102 : ℚ) ∈ sksSessionTimes tbl10 := by
    have hcols : sksLapCols tbl10 = ["BESTLAP_1"] := by decide
    have hcell :
        getCell [("NUMBER", PyVal.vInt 3), ("BESTLAP_1", PyVal.vStr "1:42.000")]
          "BESTLAP_1" = .vStr "1:42.000" := by decide
    have heval : sksSessionTimes tbl10 = [102] := by
      unfold sksSessionTimes sksRowTimes
      rw [hcols]
      simp [tbl10, hcell, lapToSeconds_142]
    rw [heval]; simp
  exact ⟨lapToSeconds_one_colon_only.2.2.1 "55.123" (by decide),
    lapToSeconds_one_colon_only.2.2.2 tbl10 102 hmem⟩

/- ==================================================================
   C2 — SectorDeltaEngine driver filter with string fallback
   ================================================================== -/

/-- C2: `summary_deltas` filters the session table by numeric comparison
with `vehicle_number`; when that matches nothing it retries with
string-typed comparison (`astype(str) == str(car_number)`), and it raises
the not-found `ValueError` exactly when no row matches under either
comparison. -/
theorem summaryDeltas_filter_fallback (tbl : Table) (car : Int) :
    (summaryDeltasDriverRows tbl car = .error .valueError ↔
      ∀ r ∈ tbl.rows, pyNumEqInt (getCell r "NUMBER") car = false ∧
        ¬ pyStr (getCell r "NUMBER") = intRepr car) ∧
    (tbl.rows.filter (fun r => pyNumEqInt (getCell r "NUMBER") car) ≠ [] →
      summaryDeltasDriverRows tbl car =
        .ok (tbl.rows.filter (fun r => pyNumEqInt (getCell r "NUMBER") car))) ∧
    (tbl.rows.filter (fun r => pyNumEqInt (getCell r "NUMBER") car) = [] →
      tbl.rows.filter (fun r => decide (pyStr (getCell r "NUMBER") = intRepr car)) ≠ [] →
      summaryDeltasDriverRows tbl car =
        .ok (tbl.rows.filter (fun r => decide (pyStr (getCell r "NUMBER") = intRepr car)))) := by
  have hne : ∀ (l : List Row), l ≠ [] → l.isEmpty = false := by
    intro l hl
    cases l with
    | nil => exact absurd rfl hl
    | cons a as => rfl
  have hemp : ∀ (l : List Row), l = [] → l.isEmpty = true := by
    intro l hl; rw [hl]; rfl
  have hiff1 :
      tbl.rows.filter (fun r => pyNumEqInt (getCell r "NUMBER") car) = [] ↔
        ∀ r ∈ tbl.rows, pyNumEqInt (getCell r "NUMBER") car = false := by
    rw [List.filter_eq_nil_iff]
    simp
  have hiff2 :
      tbl.rows.filter (fun r => decide (pyStr (getCell r "NUMBER") = intRepr car)) = [] ↔
        ∀ r ∈ tbl.rows, ¬ pyStr (getCell r "NUMBER") = intRepr car := by
    rw [List.filter_eq_nil_iff]
    simp
  refine ⟨?_, ?_, ?_⟩
  · constructor
    · intro herr
      by_cases h1 : tbl.rows.filter (fun r => pyNumEqInt (getCell r "NUMBER") car) = []
      · by_cases h2 : tbl.rows.filter
            (fun r => decide (pyStr (getCell r "NUMBER") = intRepr car)) = []
        · intro r hr
          exact ⟨hiff1.mp h1 r hr, hiff2.mp h2 r hr⟩
        · exfalso
          simp only [summaryDeltasDriverRows, hemp _ h1, hne _ h2] at herr
          simp at herr
      · exfalso
        simp only [summaryDeltasDriverRows, hne _ h1] at herr
        simp at herr
    · intro hall
      have h1 := hiff1.mpr (fun r hr => (hall r hr).1)
      have h2 := hiff2.mpr (fun r hr => (hall r hr).2)
      simp only [summaryDeltasDriverRows, hemp _ h1, hemp _ h2]
      simp
  · intro h1
    simp only [summaryDeltasDriverRows, hne _ h1]
    simp
  · intro h1 h2
    simp only [summaryDeltasDriverRows, hemp _ h1, hne _ h2]
    simp

/-- Concrete filter tables: numeric match, string-only match, no match. -/
def tbl2a : Table := ⟨["NUMBER"], [[("NUMBER", .vInt 7)]]⟩

def tbl2b : Table := ⟨["NUMBER"], [[("NUMBER", .vStr "7")]]⟩

def tbl2c : Table := ⟨["NUMBER"], [[("NUMBER", .vInt 5)]]⟩

/-- C2 witness: the three regimes at concrete tables — a numeric match, a
string-typed fallback match, and a not-found error. -/
theorem summaryDeltas_filter_fallback_witness :
    summaryDeltasDriverRows tbl2a 7 = .ok [[("NUMBER", PyVal.vInt 7)]] ∧
    summaryDeltasDriverRows tbl2b 7 = .ok [[("NUMBER", PyVal.vStr "7")]] ∧
    summaryDeltasDriverRows tbl2c 7 = .error .valueError := by
  refine ⟨?_, ?_, ?_⟩
  · rw [(summaryDeltas_filter_fallback tbl2a 7).2.1 (by decide)]
    decide
  · rw [(summaryDeltas_filter_fallback tbl2b 7).2.2 (by decide) (by decide)]
    decide
  · exact (summaryDeltas_filter_fallback tbl2c 7).1.mpr (by decide)

/- ==================================================================
   C7 — telemetry vehicle-column resolution
   ================================================================== -/

/-- C7: the exact column name resolves and the absence of any candidate is a
`ValueError`; but on the fallback path — exact name absent, a column whose
name contains `"vehicle"` present — the code does `VEHICLE_COL =
potential_cols[0]` and then immediately `raise Warning("Using column ... as
the vehicle identifier.")`, so it never proceeds with the fallback column:
the claim's "successfully proceeds" branch is unreachable. -/
theorem telemetry_vehicle_col_resolution :
    telemetryResolveVehicleCol
      ["vehicle_number", "timestamp", "telemetry_name", "telemetry_value"] =
      .ok "vehicle_number" ∧
    telemetryResolveVehicleCol
      ["vehicle_id", "timestamp", "telemetry_name", "telemetry_value"] =
      .error .warningRaised ∧
    telemetryResolveVehicleCol ["timestamp", "telemetry_name", "telemetry_value"] =
      .error .valueError :=
  ⟨by decide, by decide, by decide⟩

/- ==================================================================
   C4 — ReferenceLapResolver keeps a NaN slot instead of dropping it
   ================================================================== -/

/-- The claim's scenario table: `BESTLAP_3` is empty in the CSV, which
`read_csv` materialises as `np.nan`. -/
def tbl4 : Table :=
  ⟨["NUMBER", "BESTLAP_1", "BESTLAP_2", "BESTLAP_3"],
   [[("NUMBER", .vInt 7), ("BESTLAP_1", .vStr "2:08.511"),
     ("BESTLAP_2", .vStr "2:07.998"), ("BESTLAP_3", .vNaN)]]⟩

/-- C4: on the claim's own scenario the fastest lap is indeed `BESTLAP_2` at
127.998 s and the sort is ascending and stable, but slot 3 is NOT dropped:
`np.nan` is an instance of `float`, so the missing slot passes
`isinstance(raw, (int, float))` and is appended, and the ranked list has
three entries with `("BESTLAP_3", nan)` kept (NaN comparisons being False,
it stays last) — contradicting both the claim and the code's own
`# Missing or invalid → continue` comment. -/
theorem computeReferenceLaps_keeps_nan_slot :
    computeReferenceLaps tbl4 7 =
      .ok ⟨7, "BESTLAP_2", .fVal (127998 / 1000),
        [("BESTLAP_2", .fVal (127998 / 1000)), ("BESTLAP_1", .fVal (128511 / 1000)),
         ("BESTLAP_3", .fNaN)]⟩ := by
  have hrow :
      refDriverRows tbl4 7 =
        [[("NUMBER", .vInt 7), ("BESTLAP_1", .vStr "2:08.511"),
          ("BESTLAP_2", .vStr "2:07.998"), ("BESTLAP_3", .vNaN)]] := by decide
  have hcols : refLapCols tbl4 = ["BESTLAP_1", "BESTLAP_2", "BESTLAP_3"] := by decide
  have ha1 : splitOnChar ':' "2:08.511".data = ["2".data, "08.511".data] := by decide
  have ha2 : pyIntChars "2".data = some 2 := by decide
  have ha3 : pyFloatParts "08.511".data = some (8511, 3) := by decide
  have hb1 : splitOnChar ':' "2:07.998".data = ["2".data, "07.998".data] := by decide
  have hb3 : pyFloatParts "07.998".data = some (7998, 3) := by decide
  have hcollect :
      collectLapTimes
        [("NUMBER", .vInt 7), ("BESTLAP_1", .vStr "2:08.511"),
         ("BESTLAP_2", .vStr "2:07.998"), ("BESTLAP_3", .vNaN)]
        ["BESTLAP_1", "BESTLAP_2", "BESTLAP_3"] =
      .ok [("BESTLAP_1", .fVal (128511 / 1000)), ("BESTLAP_2", .fVal (127998 / 1000)),
           ("BESTLAP_3", .fNaN)] := by
    have hc1 : getCell [("NUMBER", PyVal.vInt 7), ("BESTLAP_1", PyVal.vStr "2:08.511"),
        ("BESTLAP_2", PyVal.vStr "2:07.998"), ("BESTLAP_3", PyVal.vNaN)] "BESTLAP_1" =
        .vStr "2:08.511" := by decide
    have hc2 : getCell [("NUMBER", PyVal.vInt 7), ("BESTLAP_1", PyVal.vStr "2:08.511"),
        ("BESTLAP_2", PyVal.vStr "2:07.998"), ("BESTLAP_3", PyVal.vNaN)] "BESTLAP_2" =
        .vStr "2:07.998" := by decide
    have hc3 : getCell [("NUMBER", PyVal.vInt 7), ("BESTLAP_1", PyVal.vStr "2:08.511"),
        ("BESTLAP_2", PyVal.vStr "2:07.998"), ("BESTLAP_3", PyVal.vNaN)] "BESTLAP_3" =
        .vNaN := by decide
    simp only [collectLapTimes, hc1, hc2, hc3, ha1, ha2, hb1,
      pyFloatChars_of_parts ha3, pyFloatChars_of_parts hb3]
    norm_num
  simp only [computeReferenceLaps, hrow, hcols, hcollect]
  have hlt : ((127998 : ℚ) / 1000) < 128511 / 1000 := by norm_num
  have hnlt : ¬ ((128511 : ℚ) / 1000) < 127998 / 1000 := by norm_num
  simp [pySortBy, insertAsc, fvLt, hlt, hnlt]

/- ==================================================================
   C5 — empty slot list: unguarded IndexError, no checked error
   ================================================================== -/

/-- A reference table with no `BESTLAP_` columns at all. -/
def tbl5 : Table := ⟨["NUMBER"], [[("NUMBER", .vInt 9)]]⟩

/-- C5 counterexample: when zero valid best-lap slots remain, the failure is
the builtin `IndexError` produced by the unguarded `lap_times_sorted[0]`
subscript on the empty list — there is no `NoValidLapsError` (or any other
dedicated checked error) anywhere in `compute_reference_laps`. -/
theorem computeReferenceLaps_no_checked_error :
    computeReferenceLaps tbl5 9 = .error .indexError := by decide

/-- C5 amended: whenever the driver filter succeeds but the slot-collection
loop yields an empty list, `compute_reference_laps` raises the unguarded
builtin `IndexError` from `lap_times_sorted[0]` instead of an explicit
checked `NoValidLapsError`. -/
theorem computeReferenceLaps_empty_unguarded (tbl : Table) (car : Int)
    (row : Row) (rest : List Row)
    (h1 : refDriverRows tbl car = row :: rest)
    (h2 : collectLapTimes row (refLapCols tbl) = .ok []) :
    computeReferenceLaps tbl car = .error .indexError := by
  simp [computeReferenceLaps, h1, h2, pySortBy]

/-- C5 witness: a driver row with no best-lap slots reaches the subscript. -/
theorem computeReferenceLaps_empty_unguarded_witness :
    computeReferenceLaps ⟨["NUMBER"], [[("NUMBER", .vInt 4)]]⟩ 4 =
      .error .indexError :=
  computeReferenceLaps_empty_unguarded _ 4 [("NUMBER", .vInt 4)] []
    (by decide) (by decide)

/- ==================================================================
   C6 — SummaryStatsAggregator position and gap
   ================================================================== -/

theorem foldl_min_mem {α : Type _} [LinearOrder α] :
    ∀ (xs : List α) (x : α), xs.foldl min x ∈ x :: xs := by
  intro xs
  induction xs with
  | nil => intro x; simp
  | cons y ys ih =>
    intro x
    have h := ih (min x y)
    rw [List.mem_cons] at h
    simp only [List.foldl]
    rcases h with h | h
    · rw [h]
      rcases le_total x y with hxy | hyx
      · rw [min_eq_left hxy]
        exact List.mem_cons_self _ _
      · rw [min_eq_right hyx]
        exact List.mem_cons_of_mem _ (List.mem_cons_self _ _)
    · exact List.mem_cons_of_mem _ (List.mem_cons_of_mem _ h)

theorem foldl_min_le {α : Type _} [LinearOrder α] :
    ∀ (xs : List α) (x y : α), y ∈ x :: xs → xs.foldl min x ≤ y := by
  intro xs
  induction xs with
  | nil =>
    intro x y hy
    simp at hy
    simp [hy]
  | cons z zs ih =>
    intro x y hy
    rw [List.mem_cons] at hy
    simp only [List.foldl]
    rcases hy with rfl | hy'
    · exact (ih (min y z) (min y z) (List.mem_cons_self _ _)).trans (min_le_left y z)
    · rw [List.mem_cons] at hy'
      rcases hy' with rfl | hy''
      · exact (ih (min x y) (min x y) (List.mem_cons_self _ _)).trans (min_le_right x y)
      · exact ih (min x z) y (List.mem_cons_of_mem _ hy'')

theorem sublist_flatten_map {α β : Type _} (g : α → List β) {l₁ l₂ : List α}
    (h : l₁.Sublist l₂) : (l₁.map g).flatten.Sublist (l₂.map g).flatten := by
  induction h with
  | slnil => simp
  | cons a _ ih =>
    simp only [List.map_cons, List.flatten_cons]
    exact ih.trans (List.sublist_append_right _ _)
  | cons₂ a _ ih =>
    simp only [List.map_cons, List.flatten_cons]
    exact ih.append_left _

/-- The driver's parsed times are a sublist of the whole session's parsed
times: `driver_df` is a filter of `df` and both flatten row-major. -/
theorem sksDriverTimes_sublist (tbl : Table) (car : Int) :
    (sksDriverTimes tbl car).Sublist (sksSessionTimes tbl) := by
  unfold sksDriverTimes sksSessionTimes sksDriverRows
  exact (sublist_flatten_map _ (List.filter_sublist _)).filterMap _

/-- C6 amended: when the driver has rows and at least one parsed time,
`display_key_summary_stats` returns `personal_best = min(driver_times)`, but
`driver_position` is the 1-based index of the first occurrence of the
personal best within the ascending sort of ALL vehicles' parsed lap times
(every slot of every vehicle, not one personal best per vehicle), and
`gap_to_fastest = session_fastest - driver_personal_best`, which is
non-positive, and zero exactly when the driver's personal best IS the
session's fastest time. -/
theorem displayKeySummaryStats_amended (tbl : Table) (car : Int)
    (t : ℚ) (ts : List ℚ) (s : ℚ) (ss : List ℚ)
    (hdr : sksDriverRows tbl car ≠ [])
    (hdt : sksDriverTimes tbl car = t :: ts)
    (hst : sksSessionTimes tbl = s :: ss) :
    displayKeySummaryStats tbl car =
      some ⟨ts.foldl min t,
            (pySortBy (fun a b => a < b) (s :: ss)).findIdx
              (fun x => x == ts.foldl min t) + 1,
            ss.foldl min s, ss.foldl min s - ts.foldl min t⟩ ∧
    ss.foldl min s - ts.foldl min t ≤ 0 ∧
    (ss.foldl min s - ts.foldl min t = 0 ↔ ts.foldl min t = ss.foldl min s) := by
  have hpb_mem : ts.foldl min t ∈ sksDriverTimes tbl car := by
    rw [hdt]; exact foldl_min_mem ts t
  have hpb_sess : ts.foldl min t ∈ sksSessionTimes tbl :=
    (sksDriverTimes_sublist tbl car).subset hpb_mem
  have hsf_le : ss.foldl min s ≤ ts.foldl min t := by
    rw [hst] at hpb_sess
    exact foldl_min_le ss s _ hpb_sess
  refine ⟨?_, sub_nonpos.mpr hsf_le, by rw [sub_eq_zero, eq_comm]⟩
  rcases hdr' : sksDriverRows tbl car with _ | ⟨r, rs⟩
  · exact absurd hdr' hdr
  · simp only [displayKeySummaryStats, hdr', hdt, hst]

theorem lapToSeconds_nan : lapToSeconds .vNaN = none := rfl

theorem lapToSeconds_140 : lapToSeconds (.vStr "1:40.000") = some 100 :=
  lapToSeconds_eval "1:40.000" "1".data "40.000".data 1 40000 3 100
    (by decide) (by decide) (by decide) (by norm_num)

theorem lapToSeconds_141 : lapToSeconds (.vStr "1:41.000") = some 101 :=
  lapToSeconds_eval "1:41.000" "1".data "41.000".data 1 41000 3 101
    (by decide) (by decide) (by decide) (by norm_num)

/-- The concrete two-vehicle session table for C6: vehicle 1 has parsed best
laps 100 s and 101 s, vehicle 2 (the driver) a single 102 s lap. -/
def tbl6 : Table :=
  ⟨["NUMBER", "BESTLAP_1", "BESTLAP_2"],
   [[("NUMBER", .vInt 1), ("BESTLAP_1", .vStr "1:40.000"), ("BESTLAP_2", .vStr "1:41.000")],
    [("NUMBER", .vInt 2), ("BESTLAP_1", .vStr "1:42.000")]]⟩

theorem sks_tbl6_driverTimes : sksDriverTimes tbl6 2 = [102] := by
  have hdr : sksDriverRows tbl6 2 =
      [[("NUMBER", .vInt 2), ("BESTLAP_1", .vStr "1:42.000")]] := by decide
  have hcols : sksLapCols tbl6 = ["BESTLAP_1", "BESTLAP_2"] := by decide
  have hc1 : getCell [("NUMBER", PyVal.vInt 2), ("BESTLAP_1", PyVal.vStr "1:42.000")]
      "BESTLAP_1" = .vStr "1:42.000" := by decide
  have hc2 : getCell [("NUMBER", PyVal.vInt 2), ("BESTLAP_1", PyVal.vStr "1:42.000")]
      "BESTLAP_2" = .vNaN := by decide
  unfold sksDriverTimes sksRowTimes
  rw [hdr, hcols]
  simp [hc1, hc2, lapToSeconds_142, lapToSeconds_nan]

theorem sks_tbl6_sessionTimes : sksSessionTimes tbl6 = [100, 101, 102] := by
  have hcols : sksLapCols tbl6 = ["BESTLAP_1", "BESTLAP_2"] := by decide
  have hc11 : getCell [("NUMBER", PyVal.vInt 1), ("BESTLAP_1", PyVal.vStr "1:40.000"),
      ("BESTLAP_2", PyVal.vStr "1:41.000")] "BESTLAP_1" = .vStr "1:40.000" := by decide
  have hc12 : getCell [("NUMBER", PyVal.vInt 1), ("BESTLAP_1", PyVal.vStr "1:40.000"),
      ("BESTLAP_2", PyVal.vStr "1:41.000")] "BESTLAP_2" = .vStr "1:41.000" := by decide
  have hc21 : getCell [("NUMBER", PyVal.vInt 2), ("BESTLAP_1", PyVal.vStr "1:42.000")]
      "BESTLAP_1" = .vStr "1:42.000" := by decide
  have hc22 : getCell [("NUMBER", PyVal.vInt 2), ("BESTLAP_1", PyVal.vStr "1:42.000")]
      "BESTLAP_2" = .vNaN := by decide
  unfold sksSessionTimes sksRowTimes
  rw [hcols]
  simp [tbl6, hc11, hc12, hc21, hc22,
    lapToSeconds_140, lapToSeconds_141, lapToSeconds_142, lapToSeconds_nan]

/-- C6 counterexample: at `tbl6` with driver 2 the claim predicts
`driver_position = 2` (second of the two per-vehicle personal bests `[100,
102]`) and `gap_to_fastest = 102 - 100 = 2 ≥ 0`; the code instead ranks
within all three parsed lap times (position 3) and returns
`session_fastest - personal_best = -2 < 0`. -/
theorem displayKeySummaryStats_counterexample :
    displayKeySummaryStats tbl6 2 = some ⟨102, 3, 100, -2⟩ ∧
    (3 : Nat) ≠ 2 ∧ ¬ (0 : ℚ) ≤ -2 := by
  refine ⟨?_, by decide, by norm_num⟩
  have hdr : sksDriverRows tbl6 2 =
      [[("NUMBER", .vInt 2), ("BESTLAP_1", .vStr "1:42.000")]] := by decide
  simp only [displayKeySummaryStats, hdr, sks_tbl6_driverTimes, sks_tbl6_sessionTimes]
  rw [Option.some_inj]
  simp only [SummaryStats.mk.injEq]
  refine ⟨by decide, by decide, by decide, by norm_num⟩

/-- C6 witness: the amended characterisation applied at `tbl6`, driver 2. -/
theorem displayKeySummaryStats_amended_witness :
    displayKeySummaryStats tbl6 2 =
      some ⟨([] : List ℚ).foldl min 102,
            (pySortBy (fun a b => a < b) ([100, 101, 102] : List ℚ)).findIdx
              (fun x => x == ([] : List ℚ).foldl min 102) + 1,
            ([101, 102] : List ℚ).foldl min 100,
            ([101, 102] : List ℚ).foldl min 100 - ([] : List ℚ).foldl min 102⟩ ∧
    ([101, 102] : List ℚ).foldl min 100 - ([] : List ℚ).foldl min 102 ≤ 0 ∧
    (([101, 102] : List ℚ).foldl min 100 - ([] : List ℚ).foldl min 102 = 0 ↔
      ([] : List ℚ).foldl min 102 = ([101, 102] : List ℚ).foldl min 100) :=
  displayKeySummaryStats_amended tbl6 2 102 [] 100 [101, 102]
    (by decide) sks_tbl6_driverTimes sks_tbl6_sessionTimes

/- ==================================================================
   C3 — consistency score: a clamped score of 0 is returned as None
   ================================================================== -/

/-- A session table whose driver 7 has four valid lap times `1, 1, 1, 9`
(mean 3, sample std 4, so `cv = 4/3 ≥ 1` and the clamped score is 0). -/
def tbl3 : Table :=
  ⟨["NUMBER", "LAP_TIME"],
   [[("NUMBER", .vInt 7), ("LAP_TIME", .vInt 1)],
    [("NUMBER", .vInt 7), ("LAP_TIME", .vInt 1)],
    [("NUMBER", .vInt 7), ("LAP_TIME", .vInt 1)],
    [("NUMBER", .vInt 7), ("LAP_TIME", .vInt 9)]]⟩

/-- C3: the driver has 4 valid lap times, the clamped score
`max(0, min(100, 100 - cv*100))` is exactly 0 — a legitimate score — yet
`deltas_tool` returns `None` for it, because the return expression
`round(consistency_score, 2) if consistency_score else None` treats the
float `0.0` as falsy. The claim says null is returned only with fewer than
2 valid laps. -/
theorem deltasTool_zero_score_becomes_none :
    deltasToolDriverLapTimes tbl3 7 = .ok [1, 1, 1, 9] ∧
    consistencyScoreVal [1, 1, 1, 9] = 0 ∧
    deltasToolConsistency tbl3 7 = .ok none := by
  have h1 : deltasToolDriverLapTimes tbl3 7 = .ok [1, 1, 1, 9] := by decide
  have hmean : meanQ [1, 1, 1, 9] = 3 := by
    unfold meanQ
    norm_num
  have hvar : sampleVarQ [1, 1, 1, 9] = 16 := by
    unfold sampleVarQ
    rw [hmean]
    norm_num
  have h2 : consistencyScoreVal [1, 1, 1, 9] = 0 := by
    unfold consistencyScoreVal
    rw [hvar, hmean]
    have hsqrt : Real.sqrt ((16 : ℚ) : ℝ) = 4 := by
      rw [show ((16 : ℚ) : ℝ) = (4 : ℝ) ^ 2 by norm_num]
      exact Real.sqrt_sq (by norm_num)
    rw [hsqrt]
    show max (0 : ℝ) (min 100 (100 - 4 / ((3 : ℚ) : ℝ) * 100)) = 0
    have hval : (100 : ℝ) - 4 / ((3 : ℚ) : ℝ) * 100 = -100 / 3 := by
      norm_num
    rw [hval]
    rw [min_eq_right (by norm_num : (-100 / 3 : ℝ) ≤ 100)]
    rw [max_eq_left (by norm_num : (-100 / 3 : ℝ) ≤ 0)]
  refine ⟨h1, h2, ?_⟩
  unfold deltasToolConsistency
  rw [h1]
  show Except.ok (consistencyReturn [1, 1, 1, 9]) = .ok none
  unfold consistencyReturn
  rw [if_pos (by norm_num : 1 < ([1, 1, 1, 9] : List ℚ).length)]
  simp [h2]

/- ==================================================================
   C8 — steering rate validity, smoothness formula, constant series
   ================================================================== -/

theorem getElem?_zipWith {α β γ : Type _} (f : α → β → γ) :
    ∀ (l₁ : List α) (l₂ : List β) (i : Nat) (a : α) (b : β),
      l₁[i]? = some a → l₂[i]? = some b → (List.zipWith f l₁ l₂)[i]? = some (f a b) := by
  intro l₁
  induction l₁ with
  | nil => intro l₂ i a b h; simp at h
  | cons x xs ih =>
    intro l₂ i a b h1 h2
    cases l₂ with
    | nil => simp at h2
    | cons y ys =>
      cases i with
      | zero =>
        simp only [List.getElem?_cons_zero, Option.some_inj] at h1 h2
        subst h1; subst h2
        simp [List.zipWith]
      | succ n =>
        simp only [List.getElem?_cons_succ] at h1 h2
        simpa [List.zipWith] using ih ys n a b h1 h2

theorem zipWith_diff_const (c : ℚ) :
    ∀ (xs : List ℚ) (x : ℚ), (∀ a ∈ x :: xs, a = c) →
      List.zipWith (fun a b => b - a) (x :: xs) xs = List.replicate xs.length 0 := by
  intro xs
  induction xs with
  | nil => intro x _; rfl
  | cons y ys ih =>
    intro x h
    have hx : x = c := h x (List.mem_cons_self _ _)
    have hy : y = c := h y (List.mem_cons_of_mem _ (List.mem_cons_self _ _))
    simp only [List.zipWith_cons_cons, List.length_cons, List.replicate_succ]
    congr 1
    · rw [hx, hy]; ring
    · exact ih y (fun a ha => h a (List.mem_cons_of_mem _ ha))

theorem diffFill0_const (c : ℚ) (l : List ℚ) (hl : ∀ x ∈ l, x = c) :
    diffFill0 l = List.replicate l.length 0 := by
  cases l with
  | nil => rfl
  | cons x xs =>
    simp only [diffFill0, List.length_cons, List.replicate_succ]
    congr 1
    exact zipWith_diff_const c xs x hl

theorem zip_diff_chain :
    ∀ (st : List (ℚ × ℚ)) (p : ℚ × ℚ),
      List.Chain' (fun a b => 0 < b.1 - a.1 ∧ b.1 - a.1 ≤ 1 / 2) (p :: st) →
      ∀ d ∈ List.zipWith (fun a b => b - a) (p.1 :: st.map Prod.fst) (st.map Prod.fst),
        0 < d ∧ d ≤ 1 / 2 := by
  intro st
  induction st with
  | nil => intro p _ d hd; simp at hd
  | cons q qs ih =>
    intro p h d hd
    rw [List.map_cons, List.zipWith_cons_cons] at hd
    rw [List.mem_cons] at hd
    rcases hd with rfl | hd'
    · exact (List.chain'_cons.mp h).1
    · exact ih q (List.chain'_cons.mp h).2 d hd'

theorem zipWith_rateOf_zero :
    ∀ (D : List ℚ), (∀ d ∈ D, 0 < d ∧ d ≤ 1 / 2) →
      List.zipWith rateOf D (List.replicate D.length 0) =
        List.replicate D.length (some 0) := by
  intro D
  induction D with
  | nil => intro _; rfl
  | cons d D' ih =>
    intro h
    simp only [List.length_cons, List.replicate_succ, List.zipWith_cons_cons]
    congr 1
    · rw [rateOf, if_pos (h d (List.mem_cons_self _ _))]
      rw [zero_div]
    · exact ih (fun x hx => h x (List.mem_cons_of_mem _ hx))

theorem filterMap_zip_replicate_some :
    ∀ (D : List ℚ),
      ((D.zip (List.replicate D.length (some (0 : ℚ)))).filterMap
        (fun p => p.2.map (fun r => (p.1, r)))) = D.map (fun d => (d, (0 : ℚ))) := by
  intro D
  induction D with
  | nil => rfl
  | cons d D' ih =>
    simp only [List.length_cons, List.replicate_succ, List.zip_cons_cons,
      List.filterMap_cons, List.map_cons, Option.map] at ih ⊢
    rw [ih]

theorem map_zero_replicate :
    ∀ (D : List ℚ), D.map (fun _ => (0 : ℚ)) = List.replicate D.length 0 := by
  intro D
  induction D with
  | nil => rfl
  | cons d D' ih =>
    simp only [List.map_cons, List.length_cons, List.replicate_succ]
    rw [ih]

theorem sampleVar_replicate_zero (m : Nat) :
    sampleVarQ (List.replicate m (0 : ℚ)) = 0 := by
  unfold sampleVarQ meanQ
  simp [List.sum_replicate, List.map_replicate]

theorem round1Q_zero : roundHalfEvenQ 1 0 = 0 := by
  unfold roundHalfEvenQ
  norm_num

theorem round2Q_zero : roundHalfEvenQ 2 0 = 0 := by
  unfold roundHalfEvenQ
  norm_num

theorem signQ_zero : signQ 0 = 0 := by
  unfold signQ
  norm_num

theorem roundR2_100 : roundHalfEvenR 2 (100 : ℝ) = 100 := by
  have h1 : (100 : ℝ) * (10 : ℝ) ^ 2 = ((10000 : Int) : ℝ) := by norm_num
  simp only [roundHalfEvenR, h1, Int.floor_intCast]
  norm_num

theorem zipWith_signdiff_replicate :
    ∀ (k : Nat),
      List.zipWith (fun a b => decide (0 < |b - a|)) (0 :: List.replicate k (0 : ℚ))
        (List.replicate k (0 : ℚ)) = List.replicate k false := by
  intro k
  induction k with
  | zero => rfl
  | succ n ih =>
    simp only [List.replicate_succ, List.zipWith_cons_cons] at ih ⊢
    rw [show (decide (0 < |(0 : ℚ) - 0|)) = false by norm_num, ih]

theorem filter_fst_false {β : Type _} (q : β → Bool) :
    ∀ (bs : List Bool) (rs : List β), (∀ b ∈ bs, b = false) →
      ((bs.zip rs).filter (fun p => p.1 && q p.2)).length = 0 := by
  intro bs
  induction bs with
  | nil => intro rs _; rfl
  | cons b bs' ih =>
    intro rs h
    cases rs with
    | nil => rfl
    | cons r rs' =>
      have hb : b = false := h b (List.mem_cons_self _ _)
      subst hb
      simp only [List.zip_cons_cons, List.filter_cons, Bool.false_and]
      exact ih rs' (fun x hx => h x (List.mem_cons_of_mem _ hx))

theorem length_steerDts (st : List (ℚ × ℚ)) : (steerDts st).length = st.length := by
  cases st with
  | nil => rfl
  | cons p ps =>
    simp only [steerDts, List.map_cons, diffFill0, List.length_cons,
      List.length_zipWith, List.length_map]
    omega

/-- On a constant-angle stream with strictly increasing timestamps whose
gaps stay within the 0.5 s threshold, the valid-rate rows are exactly the
non-first samples, each with rate 0. -/
theorem steer_const_rateRows (st : List (ℚ × ℚ)) (c : ℚ)
    (hconst : ∀ p ∈ st, p.2 = c)
    (hchain : List.Chain' (fun a b => 0 < b.1 - a.1 ∧ b.1 - a.1 ≤ 1 / 2) st) :
    steerRateRows st = (steerDts st).tail.map (fun d => (d, (0 : ℚ))) := by
  rcases st with _ | ⟨p, ps⟩
  · rfl
  have hdts : steerDts (p :: ps) =
      0 :: List.zipWith (fun a b => b - a) (p.1 :: ps.map Prod.fst) (ps.map Prod.fst) := rfl
  set D := List.zipWith (fun a b => b - a) (p.1 :: ps.map Prod.fst) (ps.map Prod.fst) with hD
  have hDlen : D.length = ps.length := by
    rw [hD, List.length_zipWith]
    simp only [List.length_cons, List.length_map]
    omega
  have hsnd : ∀ x ∈ (p :: ps).map Prod.snd, x = c := by
    intro x hx
    rw [List.mem_map] at hx
    obtain ⟨q, hq, rfl⟩ := hx
    exact hconst q hq
  have hdst : steerDSteers (p :: ps) = 0 :: List.replicate ps.length 0 := by
    unfold steerDSteers
    rw [diffFill0_const c _ hsnd]
    simp [List.replicate_succ]
  have hgood : ∀ d ∈ D, 0 < d ∧ d ≤ 1 / 2 := by
    rw [hD]
    exact zip_diff_chain ps p hchain
  have hrates : steerRates (p :: ps) = none :: List.replicate ps.length (some 0) := by
    unfold steerRates
    rw [hdts, hdst, List.zipWith_cons_cons]
    congr 1
    rw [← hDlen, zipWith_rateOf_zero D hgood, hDlen]
  unfold steerRateRows
  rw [hdts, hrates, List.zip_cons_cons, List.filterMap_cons]
  simp only [Option.map, List.tail_cons]
  rw [← hDlen]
  exact filterMap_zip_replicate_some D

theorem steer_const_absRates (st : List (ℚ × ℚ)) (c : ℚ)
    (hconst : ∀ p ∈ st, p.2 = c)
    (hchain : List.Chain' (fun a b => 0 < b.1 - a.1 ∧ b.1 - a.1 ≤ 1 / 2) st) :
    steerAbsRates st = List.replicate (st.length - 1) 0 := by
  unfold steerAbsRates
  rw [steer_const_rateRows st c hconst hchain, List.map_map]
  have hcomp : ((fun pr : ℚ × ℚ => |pr.2|) ∘ (fun d => (d, (0 : ℚ)))) =
      fun _ => (0 : ℚ) := by
    funext x
    simp
  rw [hcomp, map_zero_replicate]
  congr 1
  rw [List.length_tail, length_steerDts]

/-- Constant steering angle: smoothness score 100 and zero micro-corrections
per minute, as returned by the tool (after rounding). -/
theorem steer_const_analysis (st : List (ℚ × ℚ)) (c : ℚ)
    (hconst : ∀ p ∈ st, p.2 = c)
    (hchain : List.Chain' (fun a b => 0 < b.1 - a.1 ∧ b.1 - a.1 ≤ 1 / 2) st)
    (hlen : 3 ≤ st.length) :
    steeringSmoothnessReturn st = some 100 ∧ microPerMinuteReturn st = 0 := by
  have habs := steer_const_absRates st c hconst hchain
  have hstd : sampleStd (steerAbsRates st) = some 0 := by
    rw [habs]
    unfold sampleStd
    rw [if_pos (by simp; omega)]
    rw [sampleVar_replicate_zero]
    norm_num
  have hsm : steeringSmoothness st = some 100 := by
    unfold steeringSmoothness
    rw [hstd]
    norm_num [Real.exp_zero]
  constructor
  · unfold steeringSmoothnessReturn
    rw [hsm]
    simp [roundR2_100]
  · have hrr := steer_const_rateRows st c hconst hchain
    have hsigns : steerSigns st = List.replicate (steerDts st).tail.length 0 := by
      unfold steerSigns
      rw [hrr, List.map_map]
      have hcomp : ((fun pr : ℚ × ℚ => signQ (roundHalfEvenQ 1 pr.2)) ∘
          (fun d => (d, (0 : ℚ)))) = fun _ => (0 : ℚ) := by
        funext x
        simp [round1Q_zero, signQ_zero]
      rw [hcomp, map_zero_replicate]
    have htlen : (steerDts st).tail.length = st.length - 1 := by
      rw [List.length_tail, length_steerDts]
    obtain ⟨k, hk⟩ : ∃ k, (steerDts st).tail.length = k + 1 := by
      refine ⟨st.length - 2, ?_⟩
      rw [htlen]
      omega
    have hchval : steerSignChanges st = false :: List.replicate k false := by
      unfold steerSignChanges
      rw [hsigns, hk, List.replicate_succ]
      show false :: List.zipWith (fun a b => decide (0 < |b - a|))
          (0 :: List.replicate k 0) (List.replicate k 0) =
        false :: List.replicate k false
      rw [zipWith_signdiff_replicate k]
    have hcount : steerMicroCount st = 0 := by
      unfold steerMicroCount
      refine filter_fst_false (fun r => decide (|r.2| < 5))
        (steerSignChanges st) (steerRateRows st) ?_
      rw [hchval]
      intro b hb
      rcases List.mem_cons.mp hb with rfl | hb'
      · rfl
      · exact List.eq_of_mem_replicate hb'
    have hmc : microPerMinute st = 0 := by
      unfold microPerMinute
      rw [hcount]
      split
      · norm_num
      · rfl
    unfold microPerMinuteReturn
    rw [hmc, round2Q_zero]

/-- C8: (i) a steering sample's rate is null exactly when its `dt` is
non-positive or exceeds the 0.5 s gap threshold, and is `d_steer / dt`
otherwise; (ii) whenever the rate std is defined the smoothness score is
`100 * exp(-std(|rate|)/20)` clamped to at most 100; (iii) a strictly
constant steering-angle series (with enough valid samples for the std to be
defined) yields a returned smoothness score of exactly 100 and
`micro_corrections_per_minute = 0`. -/
theorem telemetry_steering_contract :
    (∀ (st : List (ℚ × ℚ)) (i : Nat) (dt ds : ℚ),
      (steerDts st)[i]? = some dt → (steerDSteers st)[i]? = some ds →
      ((0 < dt ∧ dt ≤ 1 / 2) → (steerRates st)[i]? = some (some (ds / dt))) ∧
      (¬(0 < dt ∧ dt ≤ 1 / 2) → (steerRates st)[i]? = some none)) ∧
    (∀ st : List (ℚ × ℚ), 2 ≤ (steerAbsRates st).length →
      steeringSmoothness st =
        some (min 100 (100 * Real.exp
          (-(Real.sqrt ((sampleVarQ (steerAbsRates st) : ℚ) : ℝ) / 20))))) ∧
    (∀ (st : List (ℚ × ℚ)) (c : ℚ), (∀ p ∈ st, p.2 = c) →
      List.Chain' (fun a b => 0 < b.1 - a.1 ∧ b.1 - a.1 ≤ 1 / 2) st →
      3 ≤ st.length →
      steeringSmoothnessReturn st = some 100 ∧ microPerMinuteReturn st = 0) := by
  refine ⟨?_, ?_, steer_const_analysis⟩
  · intro st i dt ds h1 h2
    have hr : (steerRates st)[i]? = some (rateOf dt ds) :=
      getElem?_zipWith rateOf _ _ i dt ds h1 h2
    constructor
    · intro hcond
      rw [hr, rateOf, if_pos hcond]
    · intro hcond
      rw [hr, rateOf, if_neg hcond]
  · intro st h
    unfold steeringSmoothness sampleStd
    rw [if_pos h]
    rfl

/-- The concrete constant-steering stream for the C8 witness: samples at
`t = 0, 0.25, 0.5` seconds, angle constantly 5 degrees. -/
def stream8 : List (ℚ × ℚ) := [(0, 5), (1 / 4, 5), (1 / 2, 5)]

/-- C8 witness: the contract applied at `stream8`. -/
theorem telemetry_steering_contract_witness :
    steeringSmoothnessReturn stream8 = some 100 ∧
    microPerMinuteReturn stream8 = 0 ∧
    (steerRates stream8)[1]? = some (some 0) ∧
    steeringSmoothness stream8 =
      some (min 100 (100 * Real.exp
        (-(Real.sqrt ((sampleVarQ (steerAbsRates stream8) : ℚ) : ℝ) / 20)))) := by
  have hconst : ∀ p ∈ stream8, p.2 = (5 : ℚ) := by decide
  have hchain :
      List.Chain' (fun a b => 0 < b.1 - a.1 ∧ b.1 - a.1 ≤ 1 / 2) stream8 := by
    unfold stream8
    refine List.chain'_cons.mpr ⟨by norm_num, List.chain'_cons.mpr ⟨by norm_num, ?_⟩⟩
    exact List.chain'_singleton _
  have hmain := telemetry_steering_contract.2.2 stream8 5 hconst hchain (by decide)
  refine ⟨hmain.1, hmain.2, ?_, ?_⟩
  · have h1 : (steerDts stream8)[1]? = some (1 / 4) := by
      unfold stream8 steerDts diffFill0
      simp [List.zipWith]
    have h2 : (steerDSteers stream8)[1]? = some 0 := by
      unfold stream8 steerDSteers diffFill0
      simp [List.zipWith]
    have := (telemetry_steering_contract.1 stream8 1 (1 / 4) 0 h1 h2).1 (by norm_num)
    simpa using this
  · refine telemetry_steering_contract.2.1 stream8 ?_
    rw [steer_const_absRates stream8 5 hconst hchain]
    simp [stream8]

end OkGr
